import Mathlib

/-!
Shallow embedding of the balance-ledger service (src/src/app.js).

The service mediates payments between "client" and "contractor" profiles,
connected through contracts and jobs.  The three operations with invariant
content are embedded here:

* `payJob`          — POST /jobs/:job_id/pay        (app.js lines 78–175)
* `depositToClient` — POST /balances/deposit/:userId (app.js lines 180–251)
* `bestProfession`  — GET /admin/best-profession     (app.js lines 256–283)

Monetary quantities are embedded as exact rationals, following the spec's
stated numeric semantics ("balances and prices are exact decimal/integer
fixed-point quantities").  JavaScript's special numeric values NaN and
±Infinity, which the deposit route's `typeof` check lets through, are
modelled explicitly by `JsNum`, because the control flow of the deposit
route depends on their comparison semantics (NaN comparisons are false,
Infinity is greater than everything finite).
-/

set_option allowUnsafeReducibility true in
attribute [semireducible] Rat.add Rat.mul Rat.sub Rat.inv Rat.ofScientific

namespace Deel

/-- A JavaScript number as it can appear in a balance field or a request
body: an exact finite value, NaN, or ±Infinity.  Database-resident prices
are plain rationals (the schema's DECIMAL cannot hold NaN), but balances
can be written from request data, so they carry the full type. -/
inductive JsNum where
  | fin (q : ℚ)
  | nan
  | inf
  | ninf
deriving DecidableEq, Repr

/-- JavaScript `===` comparison of a number with the literal 0
(app.js line 187: `amount === 0`).  NaN and ±Infinity are not 0. -/
def jsEqZero : JsNum → Bool
  | .fin q => q == 0
  | _ => false

/-- JavaScript `a > t` where `a` is a request number and `t` a finite
quantity (app.js line 223: `amount > twentyFivePercentAllowance`).
NaN comparisons are false; Infinity exceeds everything finite. -/
def jsGtQ : JsNum → ℚ → Bool
  | .fin a, t => decide (a > t)
  | .nan, _ => false
  | .inf, _ => true
  | .ninf, _ => false

/-- JavaScript `q > b` where `q` is a finite price and `b` a stored
balance (app.js line 111: `job.price > client.balance`). -/
def jsQGt : ℚ → JsNum → Bool
  | q, .fin b => decide (q > b)
  | _, .nan => false
  | _, .inf => false
  | _, .ninf => true

/-- JavaScript addition on numbers (app.js line 232:
`client.balance + amount`). -/
def jsAdd : JsNum → JsNum → JsNum
  | .nan, _ => .nan
  | _, .nan => .nan
  | .inf, .ninf => .nan
  | .ninf, .inf => .nan
  | .inf, _ => .inf
  | _, .inf => .inf
  | .ninf, _ => .ninf
  | _, .ninf => .ninf
  | .fin a, .fin b => .fin (a + b)

/-- Balance plus a finite price (app.js line 132:
`contractor.balance + job.price`). -/
def jsAddQ : JsNum → ℚ → JsNum
  | .fin b, q => .fin (b + q)
  | .nan, _ => .nan
  | .inf, _ => .inf
  | .ninf, _ => .ninf

/-- Balance minus a finite price (app.js line 122:
`client.balance - job.price`). -/
def jsSubQ : JsNum → ℚ → JsNum
  | .fin b, q => .fin (b - q)
  | .nan, _ => .nan
  | .inf, _ => .inf
  | .ninf, _ => .ninf

/-- A Profile row: id, role ("client" or "contractor"), balance,
profession. -/
structure Profile where
  id : Nat
  type : String
  balance : JsNum
  profession : String
deriving DecidableEq, Repr

/-- A Contract row: id, the client and contractor profile ids, and a
status ("new", "in_progress" or "terminated"). -/
structure Contract where
  id : Nat
  ClientId : Nat
  ContractorId : Nat
  status : String
deriving DecidableEq, Repr

/-- A Job row: id, owning contract id, price (schema DECIMAL, embedded
as an exact rational), paid flag, and payment date (a timestamp). -/
structure Job where
  id : Nat
  ContractId : Nat
  price : ℚ
  paid : Bool
  paymentDate : Option Nat
deriving DecidableEq, Repr

/-- The ledger store's visible state: the three tables. -/
structure State where
  profiles : List Profile
  contracts : List Contract
  jobs : List Job
deriving DecidableEq, Repr

/-- The query `Profile.findOne({where: {id}})` (app.js lines 103–105, 107–109). -/
def findProfile (s : State) (pid : Nat) : Option Profile :=
  s.profiles.find? (fun p => p.id == pid)

/-- The query `Profile.findOne({where: {id: userId, type: "client"}})`
(app.js lines 190–192). -/
def findClient (s : State) (pid : Nat) : Option Profile :=
  s.profiles.find? (fun p => p.id == pid && p.type == "client")

/-- The `include` filter shared by the payment and deposit queries: the
job's contract, required to be `in_progress` with the given ClientId
(app.js lines 83–91, 197–205). -/
def findContractFor (s : State) (clientId : Nat) (j : Job) : Option Contract :=
  s.contracts.find? (fun c =>
    c.id == j.ContractId && c.status == "in_progress" && c.ClientId == clientId)

/-- The query `Job.findOne` for the payment precondition: job with the given id,
not paid, joined to an `in_progress` contract owned by the client
(app.js lines 82–98). -/
def findPayableJob (s : State) (clientId jobId : Nat) : Option (Job × Contract) :=
  s.jobs.findSome? (fun j =>
    if j.id == jobId && !j.paid then
      (findContractFor s clientId j).map (fun c => (j, c))
    else none)

/-- The post-commit refetch of the job: same join, without the unpaid
filter (app.js lines 159–172). -/
def findJobWithContract (s : State) (clientId jobId : Nat) : Option (Job × Contract) :=
  s.jobs.findSome? (fun j =>
    if j.id == jobId then
      (findContractFor s clientId j).map (fun c => (j, c))
    else none)

/-- The update `Profile.update({balance}, {where: {id}})`: set the balance of every
profile row matching the id (app.js lines 120–128, 130–138, 230–238). -/
def updateBalance (ps : List Profile) (pid : Nat) (b : JsNum) : List Profile :=
  ps.map (fun p => if p.id == pid then { p with balance := b } else p)

/-- The update `Job.update({paid: true, paymentDate}, {where: {id}})`
(app.js lines 140–149). -/
def markPaid (js : List Job) (jobId now : Nat) : List Job :=
  js.map (fun j =>
    if j.id == jobId then { j with paid := true, paymentDate := some now } else j)

/-- The typed outcomes of the payment operation.  `Crash` embeds the
handler dereferencing a null profile row (no HTTP response is produced
in that case). -/
inductive PayOutcome where
  | Unauthorized
  | NotFound
  | InsufficientFunds
  | TransactionFailure
  | Crash
  | Ok (result : Option (Job × Contract))
deriving DecidableEq, Repr

/-- Operation `payJob requester jobId`, POST /jobs/:job_id/pay (app.js lines
78–175).  `now` is the clock value used for `paymentDate`; `txFails`
says whether the store rejects the atomic commit (the `catch` branch,
lines 153–157, which rolls back and answers 400).

Modelled from the spec: the `getProfile` and `isClient` middleware are
not under src/ (only `src/middleware/getProfile` and
`src/middleware/isClient` imports appear); per spec §4.2 precondition 1
and §7, a requester that does not resolve to a profile of role client
fails with `Unauthorized` (HTTP 401) before the handler body runs. -/
def payJob (s : State) (requesterId jobId now : Nat) (txFails : Bool) :
    PayOutcome × State :=
  match findProfile s requesterId with
  | none => (.Unauthorized, s)
  | some requester =>
    if requester.type == "client" then
      match findPayableJob s requesterId jobId with
      | none => (.NotFound, s)
      | some (job, contract) =>
        match findProfile s requesterId, findProfile s contract.ContractorId with
        | some client, some contractor =>
          if jsQGt job.price client.balance then (.InsufficientFunds, s)
          else if txFails then (.TransactionFailure, s)
          else
            let s2 : State :=
              { s with
                profiles :=
                  updateBalance
                    (updateBalance s.profiles client.id (jsSubQ client.balance job.price))
                    contractor.id (jsAddQ contractor.balance job.price),
                jobs := markPaid s.jobs jobId now }
            (.Ok (findJobWithContract s2 requesterId jobId), s2)
        | _, _ => (.Crash, s)
    else (.Unauthorized, s)

/-- The `amount` field of the deposit request body as delivered by the
JSON body parser: absent, present but not of number type, or a number
(possibly NaN or ±Infinity — `typeof NaN === "number"` in JavaScript). -/
inductive BodyAmount where
  | undef
  | nonNumber
  | num (a : JsNum)
deriving DecidableEq, Repr

/-- The typed outcomes of the deposit operation. -/
inductive DepOutcome where
  | BadRequest
  | NoContent
  | NotFound
  | Forbidden
  | TransactionFailure
  | Ok (result : Option Profile)
deriving DecidableEq, Repr

/-- The unpaid jobs of a client under `in_progress` contracts
(app.js lines 196–211), whose prices sum to the outstanding total. -/
def outstandingJobs (s : State) (clientId : Nat) : List Job :=
  s.jobs.filter (fun j => !j.paid && (findContractFor s clientId j).isSome)

/-- The sum `jobs.reduce((total, job) => total + job.price, 0)`
(app.js line 215). -/
def outstandingTotal (s : State) (clientId : Nat) : ℚ :=
  ((outstandingJobs s clientId).map (fun j => j.price)).sum

/-- Operation `depositToClient userId amount`, POST /balances/deposit/:userId
(app.js lines 180–251).  `txFails` says whether the store rejects the
commit (the `catch` branch, lines 240–244).  The allowance multiplier
0.25 is the exact rational 1/4. -/
def depositToClient (s : State) (userId : Nat) (amount : BodyAmount)
    (txFails : Bool) : DepOutcome × State :=
  match amount with
  | .num a =>
    if jsEqZero a then (.NoContent, s)
    else
      match findClient s userId with
      | none => (.NotFound, s)
      | some client =>
        if outstandingTotal s client.id == 0 then (.Forbidden, s)
        else if jsGtQ a (outstandingTotal s client.id * (1 / 4)) then (.Forbidden, s)
        else if txFails then (.TransactionFailure, s)
        else
          let s2 : State :=
            { s with
              profiles := updateBalance s.profiles client.id (jsAdd client.balance a) }
          (.Ok (findClient s2 userId), s2)
  | _ => (.BadRequest, s)

/-- The deposit route registers no authentication middleware and its
handler reads only the path parameter and the body (app.js lines
180–183); a `profile_id` header on the request is never consulted. -/
def depositRequest (s : State) (_requesterHeader : Option Nat) (userId : Nat)
    (amount : BodyAmount) (txFails : Bool) : DepOutcome × State :=
  depositToClient s userId amount txFails

/-- The balance ≥ 0 invariant of the spec's data model, as a decidable
predicate on a stored balance. -/
def nonNegBalance : JsNum → Bool
  | .fin q => decide (0 ≤ q)
  | _ => false

/-- HTTP status the deposit route answers for each outcome (app.js
lines 186, 187, 194, 218, 224, 243, 250). -/
def depStatus : DepOutcome → Nat
  | .BadRequest => 400
  | .NoContent => 204
  | .NotFound => 404
  | .Forbidden => 403
  | .TransactionFailure => 400
  | .Ok _ => 200

/-- HTTP status the payment route answers for each outcome (app.js
lines 100, 112, 156, 174, and the middleware's 401); `none` for the
crash case, where no response is sent. -/
def payStatus : PayOutcome → Option Nat
  | .Unauthorized => some 401
  | .NotFound => some 404
  | .InsufficientFunds => some 402
  | .TransactionFailure => some 400
  | .Crash => none
  | .Ok _ => some 200

/-- The paid jobs whose paymentDate lies in the inclusive window
(the SQL WHERE clause, app.js line 266). -/
def paidInWindow (s : State) (a b : Nat) : List Job :=
  s.jobs.filter (fun j =>
    j.paid && match j.paymentDate with
      | some d => decide (a ≤ d) && decide (d ≤ b)
      | none => false)

/-- The grouping key of the reporting query: the profession of the
job's contract's contractor, `none` when a LEFT JOIN finds no row
(app.js lines 262–265). -/
def professionOf (s : State) (j : Job) : Option String :=
  match s.contracts.find? (fun c => c.id == j.ContractId) with
  | none => none
  | some c =>
    match s.profiles.find? (fun p => p.id == c.ContractorId) with
    | none => none
    | some p => some p.profession

/-- The aggregate `SUM(price)` over one profession group (app.js line 262). -/
def groupTotal (s : State) (a b : Nat) (p : Option String) : ℚ :=
  (((paidInWindow s a b).filter (fun j => professionOf s j == p)).map
    (fun j => j.price)).sum

/-- First maximum of a nonempty list of keyed totals: `ORDER BY total
DESC LIMIT 1` with ties going to an arbitrary (here: earliest) group. -/
def argmaxQ {α : Type} : α × ℚ → List (α × ℚ) → α × ℚ
  | x, [] => x
  | x, y :: ys => argmaxQ (if y.2 > x.2 then y else x) ys

/-- Outcome of the reporting route: 400 for a missing bound, otherwise
a JSON object whose profession is a string or null. -/
inductive BPOutcome where
  | BadRequest
  | Result (profession : Option String)
deriving DecidableEq, Repr

/-- Operation `bestProfession start end`, GET /admin/best-profession (app.js
lines 256–283): both bounds required (`!start || !end`, line 259),
then the grouped aggregate with the largest summed price, and
`{profession: null}` when no paid job falls in the window. -/
def bestProfession (s : State) (startQ endQ : Option Nat) : BPOutcome :=
  match startQ, endQ with
  | some a, some b =>
    match ((paidInWindow s a b).map (professionOf s)).dedup with
    | [] => .Result none
    | p :: ps =>
      .Result (argmaxQ (p, groupTotal s a b p)
        (ps.map (fun q => (q, groupTotal s a b q)))).1
  | _, _ => .BadRequest

/-- A concrete ledger state shaped like the repository's seed data:
clients 1, 2 and 4, contractors 6 and 7, an in-progress contract 1
between 1 and 6 with unpaid job 2 (price 201), an in-progress contract
2 between 4 and 7 with unpaid job 15 (price 999), a terminated contract
3, and two paid jobs inside the reporting window. -/
def seedState : State :=
  { profiles :=
      [ ⟨1, "client", .fin 1150, "none"⟩,
        ⟨2, "client", .fin 100, "none"⟩,
        ⟨4, "client", .fin 1, "none"⟩,
        ⟨6, "contractor", .fin 1214, "Programmer"⟩,
        ⟨7, "contractor", .fin 50, "Musician"⟩ ],
    contracts :=
      [ ⟨1, 1, 6, "in_progress"⟩,
        ⟨2, 4, 7, "in_progress"⟩,
        ⟨3, 2, 6, "terminated"⟩ ],
    jobs :=
      [ ⟨2, 1, 201, false, none⟩,
        ⟨15, 2, 999, false, none⟩,
        ⟨5, 1, 300, true, some 10⟩,
        ⟨6, 2, 400, true, some 12⟩ ] }

/-- State `seedState` after client 1 pays job 2 at time 5: 201 moved from
profile 1 to profile 6, the job marked paid. -/
def paidSeedState : State :=
  { profiles :=
      [ ⟨1, "client", .fin (1150 - 201), "none"⟩,
        ⟨2, "client", .fin 100, "none"⟩,
        ⟨4, "client", .fin 1, "none"⟩,
        ⟨6, "contractor", .fin (1214 + 201), "Programmer"⟩,
        ⟨7, "contractor", .fin 50, "Musician"⟩ ],
    contracts :=
      [ ⟨1, 1, 6, "in_progress"⟩,
        ⟨2, 4, 7, "in_progress"⟩,
        ⟨3, 2, 6, "terminated"⟩ ],
    jobs :=
      [ ⟨2, 1, 201, true, some 5⟩,
        ⟨15, 2, 999, false, none⟩,
        ⟨5, 1, 300, true, some 10⟩,
        ⟨6, 2, 400, true, some 12⟩ ] }

/-- A balance update commutes with `find?` for any predicate that does
not read the balance: the first matching row is the updated image of
the first matching row of the original table. -/
lemma find?_updateBalance (ps : List Profile) (pid : Nat) (b : JsNum)
    (pred : Profile → Bool)
    (hpred : ∀ p : Profile, pred { p with balance := b } = pred p) :
    (updateBalance ps pid b).find? pred =
      (ps.find? pred).map
        (fun p => if p.id == pid then { p with balance := b } else p) := by
  unfold updateBalance
  rw [List.find?_map]
  have hfun :
      (pred ∘ fun p : Profile => if p.id == pid then { p with balance := b } else p)
        = pred := by
    funext p
    by_cases h : p.id == pid <;> simp [Function.comp, h, hpred]
  rw [hfun]

/-- Function `argmaxQ` returns an element of the candidate list. -/
lemma argmaxQ_mem {α : Type} (x : α × ℚ) (l : List (α × ℚ)) :
    argmaxQ x l ∈ x :: l := by
  induction l generalizing x with
  | nil => simp [argmaxQ]
  | cons y ys ih =>
    rw [argmaxQ]
    have h := ih (if y.2 > x.2 then y else x)
    rcases List.mem_cons.mp h with h1 | h1
    · rw [h1]
      by_cases hc : y.2 > x.2 <;> simp [hc]
    · exact List.mem_cons.mpr (Or.inr (List.mem_cons.mpr (Or.inr h1)))

/-- Function `argmaxQ` returns a total at least as large as every candidate. -/
lemma argmaxQ_ge {α : Type} (x : α × ℚ) (l : List (α × ℚ)) :
    ∀ y ∈ x :: l, y.2 ≤ (argmaxQ x l).2 := by
  induction l generalizing x with
  | nil => intro y hy; rw [List.mem_singleton.mp hy]; exact le_refl _
  | cons z zs ih =>
    intro y hy
    rw [argmaxQ]
    have hx : x.2 ≤ (if z.2 > x.2 then z else x).2 := by
      by_cases hc : z.2 > x.2
      · rw [if_pos hc]; exact le_of_lt hc
      · rw [if_neg hc]
    have hz : z.2 ≤ (if z.2 > x.2 then z else x).2 := by
      by_cases hc : z.2 > x.2
      · rw [if_pos hc]
      · rw [if_neg hc]; exact le_of_not_lt hc
    rcases List.mem_cons.mp hy with h1 | h1
    · exact le_trans (h1 ▸ hx) (ih _ _ (List.mem_cons_self _ _))
    · rcases List.mem_cons.mp h1 with h2 | h2
      · exact le_trans (h2 ▸ hz) (ih _ _ (List.mem_cons_self _ _))
      · exact ih _ y (List.mem_cons.mpr (Or.inr h2))

/-- C3: whenever payJob returns InsufficientFunds, Unauthorized, or
NotFound, the ledger state — every balance and every job field — is
exactly the state the operation started from: all precondition
failures happen before any mutation. -/
theorem payJob_rejection_no_mutation (s : State) (rid jid now : Nat) (tf : Bool)
    (o : PayOutcome) (s2 : State)
    (h : payJob s rid jid now tf = (o, s2))
    (ho : o = .Unauthorized ∨ o = .NotFound ∨ o = .InsufficientFunds) :
    s2 = s := by
  unfold payJob at h
  repeat' split at h
  all_goals (try simp_all)
  all_goals (obtain ⟨h1, h2⟩ := h; subst h1; simp at ho)

/-- Witness for C3: client 2 paying job 2 (owned by client 1) is
rejected with NotFound and the state is untouched. -/
theorem payJob_rejection_no_mutation_witness :
    (payJob seedState 2 2 0 false).2 = seedState :=
  payJob_rejection_no_mutation seedState 2 2 0 false
    (payJob seedState 2 2 0 false).1 (payJob seedState 2 2 0 false).2
    rfl (Or.inr (Or.inl (by decide)))

/-- C10: the deposit route performs no authentication: two requests
with the same target user and amount produce the same outcome and the
same resulting state whatever identity header (if any) accompanies
them. -/
theorem depositRequest_ignores_requester :
    ∀ (s : State) (h1 h2 : Option Nat) (uid : Nat) (a : BodyAmount) (tf : Bool),
      depositRequest s h1 uid a tf = depositRequest s h2 uid a tf := by
  intro s h1 h2 uid a tf
  rfl

/-- C2 is false of the code: starting from a state in which every
stored balance is non-negative, a deposit of the numeric amount -2000
to client 1 commits and leaves that client's balance at -850. -/
theorem deposit_negative_amount_negative_balance :
    (∀ p ∈ seedState.profiles, nonNegBalance p.balance = true) ∧
    (depositToClient seedState 1 (.num (.fin (-2000))) false).1 =
      .Ok (some ⟨1, "client", .fin (-850), "none"⟩) ∧
    ((findProfile (depositToClient seedState 1 (.num (.fin (-2000))) false).2 1).map
      (fun p => nonNegBalance p.balance)) = some false := by
  decide

/-- C7 is false of the code: NaN has JavaScript type "number", so a
NaN amount passes the `typeof` guard, reaches the commit, and corrupts
client 1's balance to NaN instead of failing with BadRequest. -/
theorem deposit_nan_cex :
    (depositToClient seedState 1 (.num .nan) false).1 ≠ .BadRequest ∧
    (depositToClient seedState 1 (.num .nan) false).1 =
      .Ok (some ⟨1, "client", .nan, "none"⟩) := by
  decide

/-- C7 as amended: an absent amount or an amount not of number type is
rejected with BadRequest before any lookup or mutation, and a numeric
amount equal to 0 short-circuits to the distinguished NoContent result
with no mutation. -/
theorem deposit_bad_request_and_zero (s : State) (uid : Nat) (tf : Bool) :
    depositToClient s uid .undef tf = (.BadRequest, s) ∧
    depositToClient s uid .nonNumber tf = (.BadRequest, s) ∧
    depositToClient s uid (.num (.fin 0)) tf = (.NoContent, s) := by
  refine ⟨rfl, rfl, ?_⟩
  have h0 : jsEqZero (.fin 0) = true := by decide
  simp [depositToClient, h0]

/-- C6 is false as stated: client 2 exists and has outstanding total 0,
yet a deposit with the numeric amount 0 answers NoContent (the zero
fast path runs before the Forbidden check), not Forbidden. -/
theorem deposit_zero_amount_cex :
    findClient seedState 2 = some ⟨2, "client", .fin 100, "none"⟩ ∧
    outstandingTotal seedState 2 = 0 ∧
    depositToClient seedState 2 (.num (.fin 0)) false = (.NoContent, seedState) ∧
    DepOutcome.NoContent ≠ DepOutcome.Forbidden := by
  decide

/-- C9 is false as stated: a malformed-input rejection and a commit
failure of the deposit operation both surface to the caller as HTTP
status 400 with an empty body, so the two outcomes are not
distinguishable. -/
theorem deposit_status_collision_cex :
    (depositToClient seedState 1 .undef false).1 = .BadRequest ∧
    (depositToClient seedState 1 (.num (.fin 10)) true).1 = .TransactionFailure ∧
    depStatus (depositToClient seedState 1 .undef false).1 = 400 ∧
    depStatus (depositToClient seedState 1 (.num (.fin 10)) true).1 = 400 := by
  decide

/-- C9 as amended: each invocation of payJob and depositToClient
yields exactly one typed outcome; NotFound (404), Unauthorized (401),
InsufficientFunds (402) and Forbidden (403) carry pairwise distinct
statuses, but BadRequest and TransactionFailure both map to 400, so a
deposit commit failure is indistinguishable from malformed input. -/
theorem outcome_status_mapping :
    (∀ (s : State) (uid : Nat) (a : BodyAmount) (tf : Bool),
      ∃ o s2, depositToClient s uid a tf = (o, s2)) ∧
    (∀ (s : State) (rid jid now : Nat) (tf : Bool),
      ∃ o s2, payJob s rid jid now tf = (o, s2)) ∧
    payStatus .Unauthorized = some 401 ∧
    payStatus .NotFound = some 404 ∧
    payStatus .InsufficientFunds = some 402 ∧
    payStatus .TransactionFailure = some 400 ∧
    depStatus .NotFound = 404 ∧
    depStatus .Forbidden = 403 ∧
    depStatus .BadRequest = 400 ∧
    depStatus .TransactionFailure = 400 ∧
    depStatus .BadRequest = depStatus .TransactionFailure := by
  refine ⟨fun s uid a tf => ⟨_, _, rfl⟩, fun s rid jid now tf => ⟨_, _, rfl⟩,
    rfl, rfl, rfl, rfl, rfl, rfl, rfl, rfl, rfl⟩

/-- C4: for a client paying an existing, unpaid job under an
in_progress contract it owns, the call ends in InsufficientFunds
exactly when the client's balance is strictly below the job's price;
balance ≥ price always passes this check, whatever the transaction
step then does. -/
theorem payJob_insufficient_funds_iff (s : State) (rid jid now : Nat) (tf : Bool)
    (requester contractor : Profile) (j : Job) (c : Contract) (qb : ℚ)
    (hreq : findProfile s rid = some requester)
    (ht : requester.type = "client")
    (hjob : findPayableJob s rid jid = some (j, c))
    (hcon : findProfile s c.ContractorId = some contractor)
    (hb : requester.balance = .fin qb) :
    (payJob s rid jid now tf).1 = .InsufficientFunds ↔ qb < j.price := by
  unfold payJob
  rw [hreq]
  simp only [ht, hjob, hcon, hb]
  by_cases hgt : qb < j.price
  · simp [jsQGt, hgt]
  · by_cases htf : tf <;> simp [jsQGt, hgt, htf]

/-- Witness for C4: client 4 (balance 1) paying job 15 (price 999) is
rejected with InsufficientFunds, and 1 < 999. -/
theorem payJob_insufficient_funds_iff_witness :
    (payJob seedState 4 15 0 false).1 = .InsufficientFunds ↔ (1 : ℚ) < 999 :=
  payJob_insufficient_funds_iff seedState 4 15 0 false
    ⟨4, "client", .fin 1, "none"⟩ ⟨7, "contractor", .fin 50, "Musician"⟩
    ⟨15, 2, 999, false, none⟩ ⟨2, 4, 7, "in_progress"⟩ 1
    (by decide) rfl (by decide) (by decide) rfl

/-- The payment query comes back empty exactly when there is no job
row with the requested id that is unpaid and joined to an in_progress
contract owned by the requester. -/
lemma findPayableJob_eq_none_iff (s : State) (rid jid : Nat) :
    findPayableJob s rid jid = none ↔
      ∀ j ∈ s.jobs, j.id = jid →
        (j.paid = true ∨ ∀ c ∈ s.contracts, c.id = j.ContractId →
          ¬(c.status = "in_progress" ∧ c.ClientId = rid)) := by
  unfold findPayableJob
  rw [List.findSome?_eq_none_iff]
  apply forall_congr'
  intro j
  apply imp_congr_right
  intro _
  by_cases h1 : j.id = jid
  · by_cases h2 : j.paid = true
    · simp [h1, h2]
    · have hp : j.paid = false := by
        cases hpp : j.paid
        · rfl
        · exact absurd hpp h2
      rw [h1, hp]
      simp only [beq_self_eq_true, Bool.not_false, Bool.and_self, if_true,
        Option.map_eq_none', findContractFor, List.find?_eq_none]
      constructor
      · intro h _
        refine Or.inr fun c hc hcid hrest => ?_
        exact h c hc (by simp [hcid, hrest.1, hrest.2])
      · intro h c hc hcond
        rcases h (by trivial) with h3 | h3
        · simp at h3
        · simp only [Bool.and_eq_true, beq_iff_eq] at hcond
          exact h3 c hc hcond.1.1 ⟨hcond.1.2, hcond.2⟩
  · simp [h1]

/-- C5: for a requester that resolves to a client profile, payJob
returns NotFound exactly when the target job does not exist, is
already paid, or belongs to a contract that is not in_progress or is
not owned by the requester; in particular an already-paid job always
yields NotFound. -/
theorem payJob_not_found_iff (s : State) (rid jid now : Nat) (tf : Bool)
    (requester : Profile)
    (hreq : findProfile s rid = some requester)
    (ht : requester.type = "client") :
    (payJob s rid jid now tf).1 = .NotFound ↔
      ∀ j ∈ s.jobs, j.id = jid →
        (j.paid = true ∨ ∀ c ∈ s.contracts, c.id = j.ContractId →
          ¬(c.status = "in_progress" ∧ c.ClientId = rid)) := by
  rw [← findPayableJob_eq_none_iff]
  unfold payJob
  rw [hreq]
  simp only [ht, beq_self_eq_true, if_true]
  cases hm : findPayableJob s rid jid with
  | none => simp
  | some jc =>
    obtain ⟨j, c⟩ := jc
    cases hc : findProfile s c.ContractorId with
    | none => simp [hc]
    | some contractor =>
      by_cases hgt : jsQGt j.price requester.balance <;>
        by_cases htf : tf <;> simp [hc, hgt, htf]

/-- Witness for C5: client 2 paying job 2, whose contract belongs to
client 1, gets NotFound, and every job row with id 2 is indeed either
paid or not under an in_progress contract owned by client 2. -/
theorem payJob_not_found_iff_witness :
    (payJob seedState 2 2 0 false).1 = .NotFound ↔
      ∀ j ∈ seedState.jobs, j.id = 2 →
        (j.paid = true ∨ ∀ c ∈ seedState.contracts, c.id = j.ContractId →
          ¬(c.status = "in_progress" ∧ c.ClientId = 2)) :=
  payJob_not_found_iff seedState 2 2 0 false
    ⟨2, "client", .fin 100, "none"⟩ (by decide) rfl

/-- C1: a successful payJob moves exactly the job's price from the
client to the contractor: the client's balance drops by the price, the
contractor's rises by the price, and their sum is unchanged — no money
is created or destroyed. -/
theorem payJob_conservation (s : State) (rid jid now : Nat) (tf : Bool)
    (requester contractor : Profile) (j : Job) (c : Contract)
    (oj : Option (Job × Contract)) (s2 : State) (qc qt : ℚ)
    (hreq : findProfile s rid = some requester)
    (hjob : findPayableJob s rid jid = some (j, c))
    (hcon : findProfile s c.ContractorId = some contractor)
    (hne : contractor.id ≠ requester.id)
    (hcb : requester.balance = .fin qc)
    (htb : contractor.balance = .fin qt)
    (h : payJob s rid jid now tf = (.Ok oj, s2)) :
    findProfile s2 rid = some { requester with balance := .fin (qc - j.price) } ∧
    findProfile s2 c.ContractorId = some { contractor with balance := .fin (qt + j.price) } ∧
    (qc - j.price) + (qt + j.price) = qc + qt := by
  have hb1 : (requester.id == contractor.id) = false := by
    simp [Ne.symm hne]
  have hb2 : (contractor.id == requester.id) = false := by
    simp [hne]
  unfold payJob at h
  rw [hreq] at h
  by_cases htc : (requester.type == "client") = true
  case neg =>
    simp only [Bool.not_eq_true] at htc
    simp [htc] at h
  case pos =>
  simp only [htc, if_true] at h
  rw [hjob] at h
  simp only [] at h
  rw [hcon] at h
  simp only [] at h
  by_cases hgt : jsQGt j.price requester.balance = true
  case pos => simp [hgt] at h
  case neg =>
  simp only [Bool.not_eq_true] at hgt
  by_cases htf : tf = true
  case pos => simp [hgt, htf] at h
  case neg =>
  simp only [Bool.not_eq_true] at htf
  simp only [hgt, htf, Bool.false_eq_true, if_false] at h
  obtain ⟨h1, h2⟩ := Prod.mk.injEq .. ▸ h
  subst h2
  refine ⟨?_, ?_, by ring⟩
  · unfold findProfile at hreq ⊢
    rw [find?_updateBalance _ _ _ _ (fun p => rfl),
      find?_updateBalance _ _ _ _ (fun p => rfl), hreq]
    simp [hb1, hcb]
    rw [if_neg (Ne.symm hne)]
    rfl
  · unfold findProfile at hcon ⊢
    rw [find?_updateBalance _ _ _ _ (fun p => rfl),
      find?_updateBalance _ _ _ _ (fun p => rfl), hcon]
    simp [hb2, htb]
    rw [if_neg hne, if_pos rfl]
    rfl

/-- Witness for C1: client 1 (balance 1150) pays job 2 (price 201) to
contractor 6 (balance 1214); afterwards the balances are 949 and 1415
and their sum is unchanged. -/
theorem payJob_conservation_witness :
    findProfile paidSeedState 1 =
      some ⟨1, "client", .fin (1150 - 201), "none"⟩ ∧
    findProfile paidSeedState 6 =
      some ⟨6, "contractor", .fin (1214 + 201), "Programmer"⟩ ∧
    ((1150 : ℚ) - 201) + (1214 + 201) = 1150 + 1214 :=
  payJob_conservation seedState 1 2 5 false
    ⟨1, "client", .fin 1150, "none"⟩ ⟨6, "contractor", .fin 1214, "Programmer"⟩
    ⟨2, 1, 201, false, none⟩ ⟨1, 1, 6, "in_progress"⟩
    (some (⟨2, 1, 201, true, some 5⟩, ⟨1, 1, 6, "in_progress"⟩)) paidSeedState
    1150 1214
    (by decide) (by decide) (by decide) (by decide) rfl rfl (by decide)

/-- C6 as amended: for a deposit to an existing client with a numeric
amount that is not === 0, when the commit step succeeds: outstanding
total 0 is Forbidden; amount above 25% of the outstanding total is
Forbidden; otherwise the deposit commits and sets the client's balance
to balance + amount — an increase by exactly the amount when both are
finite. -/
theorem deposit_cap_spec (s : State) (uid : Nat) (a : JsNum) (client : Profile)
    (hz : jsEqZero a = false)
    (hc : findClient s uid = some client) :
    (outstandingTotal s client.id = 0 →
        depositToClient s uid (.num a) false = (.Forbidden, s)) ∧
    (outstandingTotal s client.id ≠ 0 →
        jsGtQ a (outstandingTotal s client.id * (1 / 4)) = true →
        depositToClient s uid (.num a) false = (.Forbidden, s)) ∧
    (outstandingTotal s client.id ≠ 0 →
        jsGtQ a (outstandingTotal s client.id * (1 / 4)) = false →
        depositToClient s uid (.num a) false =
          (.Ok (findClient
              { s with profiles :=
                  updateBalance s.profiles client.id (jsAdd client.balance a) } uid),
            { s with profiles :=
                updateBalance s.profiles client.id (jsAdd client.balance a) }) ∧
        ∀ qb qa : ℚ, client.balance = .fin qb → a = .fin qa →
          ∃ p2 : Profile,
            findClient
              { s with profiles :=
                  updateBalance s.profiles client.id (jsAdd client.balance a) } uid =
              some p2 ∧
            p2.balance = .fin (qb + qa)) := by
  unfold depositToClient
  simp only []
  rw [hz]
  simp only [Bool.false_eq_true, if_false]
  rw [hc]
  simp only []
  refine ⟨?_, ?_, ?_⟩
  · intro hT
    rw [if_pos (by simp [hT])]
  · intro hT hgt
    rw [if_neg (by simp [hT]), if_pos hgt]
  · intro hT hgt
    rw [if_neg (by simp [hT]),
      if_neg (by simp only [hgt, Bool.false_eq_true]; exact not_false)]
    refine ⟨rfl, ?_⟩
    intro qb qa hqb hqa
    refine ⟨{ client with balance := .fin (qb + qa) }, ?_, rfl⟩
    unfold findClient at hc ⊢
    rw [find?_updateBalance _ _ _ _ (fun p => rfl), hc, hqb, hqa]
    simp
    rfl

/-- Witness for C6: depositing 10 to client 1, whose outstanding total
is 201 (allowance 50.25), commits and raises the balance from 1150 to
1160. -/
theorem deposit_cap_spec_witness :
    (outstandingTotal seedState 1 = 0 →
        depositToClient seedState 1 (.num (.fin 10)) false = (.Forbidden, seedState)) ∧
    (outstandingTotal seedState 1 ≠ 0 →
        jsGtQ (.fin 10) (outstandingTotal seedState 1 * (1 / 4)) = true →
        depositToClient seedState 1 (.num (.fin 10)) false = (.Forbidden, seedState)) ∧
    (outstandingTotal seedState 1 ≠ 0 →
        jsGtQ (.fin 10) (outstandingTotal seedState 1 * (1 / 4)) = false →
        depositToClient seedState 1 (.num (.fin 10)) false =
          (.Ok (findClient
              { seedState with profiles :=
                  updateBalance seedState.profiles 1 (jsAdd (.fin 1150) (.fin 10)) } 1),
            { seedState with profiles :=
                updateBalance seedState.profiles 1 (jsAdd (.fin 1150) (.fin 10)) }) ∧
        ∀ qb qa : ℚ, JsNum.fin 1150 = .fin qb → JsNum.fin 10 = .fin qa →
          ∃ p2 : Profile,
            findClient
              { seedState with profiles :=
                  updateBalance seedState.profiles 1 (jsAdd (.fin 1150) (.fin 10)) } 1 =
              some p2 ∧
            p2.balance = .fin (qb + qa)) :=
  deposit_cap_spec seedState 1 (.fin 10) ⟨1, "client", .fin 1150, "none"⟩
    (by decide) (by decide)

/-- C8: bestProfession demands both window bounds (else BadRequest);
with both present it groups the paid jobs of the window by the
profession of the job's contract's contractor, and returns a group of
maximal summed price, or a null profession when no paid job falls in
the window.  The hypothesis is the referential integrity of the
grouping join: every job's profession resolves. -/
theorem bestProfession_spec (s : State) (aQ bQ : Option Nat)
    (hprof : ∀ j ∈ s.jobs, (professionOf s j).isSome = true) :
    ((aQ = none ∨ bQ = none) → bestProfession s aQ bQ = .BadRequest) ∧
    (∀ a b : Nat, aQ = some a → bQ = some b →
      (paidInWindow s a b = [] → bestProfession s aQ bQ = .Result none) ∧
      (paidInWindow s a b ≠ [] → ∃ pr : String,
        bestProfession s aQ bQ = .Result (some pr) ∧
        some pr ∈ (paidInWindow s a b).map (professionOf s) ∧
        ∀ q ∈ (paidInWindow s a b).map (professionOf s),
          groupTotal s a b q ≤ groupTotal s a b (some pr))) := by
  constructor
  · intro hab
    rcases hab with h | h
    · subst h; cases bQ <;> rfl
    · subst h; cases aQ <;> rfl
  · intro a b ha hb
    subst ha
    subst hb
    constructor
    · intro hrows
      simp [bestProfession, hrows]
    · intro hrows
      have hmapne : (paidInWindow s a b).map (professionOf s) ≠ [] := by
        simpa using hrows
      have hdedupne : ((paidInWindow s a b).map (professionOf s)).dedup ≠ [] := by
        intro hdd
        exact hmapne ((List.dedup_eq_nil _).mp hdd)
      obtain ⟨p, ps, hd⟩ := List.exists_cons_of_ne_nil hdedupne
      unfold bestProfession
      simp only []
      rw [hd]
      simp only []
      have hmem :
          argmaxQ (p, groupTotal s a b p) (ps.map fun q => (q, groupTotal s a b q)) ∈
            (p :: ps).map (fun q => (q, groupTotal s a b q)) := by
        rw [List.map_cons]
        exact argmaxQ_mem _ _
      obtain ⟨q0, hq0mem, hq0⟩ := List.mem_map.mp hmem
      have hq0mem2 : q0 ∈ (paidInWindow s a b).map (professionOf s) := by
        have : q0 ∈ ((paidInWindow s a b).map (professionOf s)).dedup := hd ▸ hq0mem
        exact List.mem_dedup.mp this
      obtain ⟨j0, hj0, hj0q⟩ := List.mem_map.mp hq0mem2
      have hj0s : j0 ∈ s.jobs := by
        have := hj0
        unfold paidInWindow at this
        exact (List.mem_filter.mp this).1
      obtain ⟨pr, hpr⟩ : ∃ pr : String, q0 = some pr := by
        rw [← hj0q]
        cases hopt : professionOf s j0 with
        | none =>
          have := hprof j0 hj0s
          rw [hopt] at this
          simp at this
        | some v => exact ⟨v, rfl⟩
      refine ⟨pr, ?_, ?_, ?_⟩
      · rw [← hq0]
        simp [hpr]
      · rw [← hpr]
        exact hq0mem2
      · intro q hq
        have hqd : q ∈ p :: ps := by
          rw [← hd]
          exact List.mem_dedup.mpr hq
        have hpair :
            (q, groupTotal s a b q) ∈
              (p, groupTotal s a b p) :: ps.map (fun q => (q, groupTotal s a b q)) := by
          have hmm : (q, groupTotal s a b q) ∈
              (p :: ps).map (fun q => (q, groupTotal s a b q)) :=
            List.mem_map.mpr ⟨q, hqd, rfl⟩
          simpa using hmm
        have hle := argmaxQ_ge (p, groupTotal s a b p)
          (ps.map fun q => (q, groupTotal s a b q)) _ hpair
        rw [← hq0] at hle
        simpa [hpr] using hle

/-- Witness for C8: over the window [9, 13] of the seed-like state the
paid jobs are job 5 (price 300, Programmer) and job 6 (price 400,
Musician); every grouped profession resolves and the returned group is
maximal. -/
theorem bestProfession_spec_witness :
    ((some 9 = (none : Option Nat) ∨ some 13 = (none : Option Nat)) →
      bestProfession seedState (some 9) (some 13) = .BadRequest) ∧
    (∀ a b : Nat, some 9 = some a → some 13 = some b →
      (paidInWindow seedState a b = [] →
        bestProfession seedState (some 9) (some 13) = .Result none) ∧
      (paidInWindow seedState a b ≠ [] → ∃ pr : String,
        bestProfession seedState (some 9) (some 13) = .Result (some pr) ∧
        some pr ∈ (paidInWindow seedState a b).map (professionOf seedState) ∧
        ∀ q ∈ (paidInWindow seedState a b).map (professionOf seedState),
          groupTotal seedState a b q ≤ groupTotal seedState a b (some pr))) :=
  bestProfession_spec seedState (some 9) (some 13) (by decide)

end Deel
